import Mathlib

/-!
# AnimeUnityDownloader — verification of the resolve-and-transfer pipeline

Shallow embedding of the core functions of the AnimeUnityDownloader
repository: the episode-range validation and catalog resolution of
`helpers/crawler/crawler.py` and `helpers/crawler/crawler_utils.py`, the
retrying fetcher `fetch_with_retries`, the download retry loop of
`anime_downloader.py`, the directory-name sanitization duplicated in
`helpers/file_utils.py` and `helpers/general_utils.py`, and the
semaphore-bounded concurrency discipline of the crawler.

Python `sys.exit(1)` is modelled as `Except.error` (the error value carries
the logged message or the exit code); fallible fetches return `Option`.
Machine integers are `Int`/`Nat` (Python integers are unbounded, so no
wrap-around is modelled).
-/

namespace AnimeUnity

/-! ## Configuration constants (helpers/config.py) -/

/-- Constant `BATCH_SIZE = 120` (helpers/config.py line 28). -/
def BATCH_SIZE : Nat := 120

/-- Constant `CRAWLER_WORKERS = 8` (helpers/config.py line 29). -/
def CRAWLER_WORKERS : Nat := 8

/-! ## Directory-name sanitization

`sanitize_directory_name` appears verbatim in two modules
(`helpers/file_utils.py` lines 32-43 and `helpers/general_utils.py` lines
208-219).  Both select a character class by `os.name` (`"nt"` for Windows,
`"posix"` for macOS/Linux) and substitute `_` for every character of the
class.  The regex in both files is a single-character class, so `re.sub`
acts independently on each character of the input. -/

/-- The two values of `os.name` the dictionaries in both copies cover. -/
inductive OsName where
  | nt
  | posix
deriving DecidableEq, Repr

namespace FileUtils

/-- Character class of `helpers/file_utils.py`:
the class `[\\/:*?"<>|]` for `"nt"` and `[/:]` for `"posix"`. -/
def invalidChars : OsName → List Char
  | .nt => ['\\', '/', ':', '*', '?', '\"', '<', '>', '|']
  | .posix => ['/', ':']

/-- Function `sanitize_directory_name` (helpers/file_utils.py lines 32-43):
`re.sub(invalid_chars, "_", directory_name)` with the class above. -/
def sanitize_directory_name (os : OsName) (s : String) : String :=
  ⟨s.data.map (fun c => if c ∈ invalidChars os then '_' else c)⟩

end FileUtils

namespace GeneralUtils

/-- Character class of `helpers/general_utils.py`:
the class `[\\/:*?"<>|]` for `"nt"` and `[/:]` for `"posix"`. -/
def invalidChars : OsName → List Char
  | .nt => ['\\', '/', ':', '*', '?', '\"', '<', '>', '|']
  | .posix => ['/', ':']

/-- Function `sanitize_directory_name` (helpers/general_utils.py lines 208-219):
`re.sub(invalid_chars, "_", directory_name)` with the class above. -/
def sanitize_directory_name (os : OsName) (s : String) : String :=
  ⟨s.data.map (fun c => if c ∈ invalidChars os then '_' else c)⟩

end GeneralUtils

/-! ## Episode-range validation (helpers/crawler/crawler_utils.py lines 39-60)

`validate_episode_range(start_episode, end_episode, num_episodes)` guards
its checks with Python truthiness (`if start_episode:` and
`if start_episode and end_episode:`), so `None` and `0` both skip a block.
`log_and_exit` logs the message and calls `sys.exit(1)`, modelled as
`Except.error message`. -/

/-- Python truthiness of an `int | None` value: `None` and `0` are falsy. -/
def truthy : Option Int → Bool
  | none => false
  | some n => n != 0

/-- Function `validate_episode_range` (crawler_utils.py lines 39-60).  The error value
is the message passed to `log_and_exit`, which exits with status 1.  The
three guarded checks are written as one `match` over the two optional
bounds; each branch keeps the order of tests used in the source. -/
def validate_episode_range (startEp endEp : Option Int) (numEpisodes : Int) :
    Except String (Option Int × Option Int) :=
  match startEp, endEp with
  | some s, some e =>
    -- `if start_episode:` then `if start_episode and end_episode:`
    if s ≠ 0 ∧ (s < 1 ∨ s > numEpisodes) then
      .error "Start episode must be between 1 and num_episodes."
    else if s ≠ 0 ∧ e ≠ 0 ∧ s > e then
      .error "Start episode cannot be greater than end episode."
    else if s ≠ 0 ∧ e ≠ 0 ∧ e > numEpisodes then
      .error "End episode must be between 1 and num_episodes."
    else
      .ok (startEp, endEp)
  | some s, none =>
    -- only the `if start_episode:` block can fire
    if s ≠ 0 ∧ (s < 1 ∨ s > numEpisodes) then
      .error "Start episode must be between 1 and num_episodes."
    else
      .ok (startEp, endEp)
  | none, _ =>
    -- `start_episode` is falsy: both guarded blocks are skipped
    .ok (startEp, endEp)

/-! ## The retrying fetcher (helpers/crawler/crawler_utils.py lines 134-199)

`fetch_with_retries(url, semaphore, headers, params, retries=4)` loops
`for attempt in range(retries)` over the primary httpx transport.  The
embedding is parametrised by the outcome of each primary attempt and by the
result of `fetch_with_cloudscraper` (the fallback transport, lines 63-131,
which catches every exception internally and returns a response or `None`).
The run records the ordered trace of attempts, sleeps and fallback calls. -/

/-- Outcome of one primary (httpx) GET attempt, as classified by the
`try`/`except` of `fetch_with_retries`. -/
inductive AttemptOutcome where
  | success (body : String)
  | httpStatus (code : Nat)
  | requestError
deriving DecidableEq, Repr

/-- The sleeps `fetch_with_retries` performs.  Durations in the source:
`preDelay` is `0.5 + random.uniform(0, 1.5)` before every attempt after the
first; `backoff403` is `2 ** attempt + random.uniform(1, 3)`; `backoffStd`
is `2 ** attempt + random.uniform(0, 2)`. -/
inductive SleepKind where
  | preDelay (attempt : Nat)
  | backoff403 (attempt : Nat)
  | backoffStd (attempt : Nat)
deriving DecidableEq, Repr

/-- One observable event of a `fetch_with_retries` run. -/
inductive FetchEvent where
  | primary (attempt : Nat)
  | sleep (k : SleepKind)
  | fallbackCall
deriving DecidableEq, Repr

/-- Trace and final value of a `fetch_with_retries` run. -/
structure FetchRun where
  events : List FetchEvent
  result : Option String
deriving DecidableEq, Repr

/-- The anti-bot delay at the top of the loop body:
`if attempt > 0: await asyncio.sleep(0.5 + random.uniform(0, 1.5))`. -/
def preDelayEvents (i : Nat) : List FetchEvent :=
  if 0 < i then [.sleep (.preDelay i)] else []

/-- Loop `for attempt in range(retries)` of `fetch_with_retries`,
unrolled from attempt `i` with `fuel = retries - i` iterations left.
Branches follow crawler_utils.py lines 160-199:
- success returns the response at once;
- `HTTPStatusError` with code 403 sleeps `backoff403` and retries while
  `attempt < retries - 1`, otherwise calls the fallback and returns its
  result directly;
- any other `HTTPStatusError` sleeps `backoffStd` and retries while
  `attempt < retries - 1`, otherwise just lets the loop end;
- `RequestError` sleeps `backoffStd` and retries while
  `attempt < retries - 1`, otherwise calls the fallback and returns its
  result directly;
- a spent loop falls through to `return None`. -/
def fetchGo (att : Nat → AttemptOutcome) (fb : Option String) (retries : Nat) :
    Nat → Nat → FetchRun
  | 0, _ => ⟨[], none⟩
  | fuel + 1, i =>
    let pre : List FetchEvent := preDelayEvents i
    match att i with
    | .success body => ⟨pre ++ [.primary i], some body⟩
    | .httpStatus code =>
      if code = 403 then
        if i < retries - 1 then
          let rest := fetchGo att fb retries fuel (i + 1)
          ⟨pre ++ [.primary i, .sleep (.backoff403 i)] ++ rest.events, rest.result⟩
        else
          ⟨pre ++ [.primary i, .fallbackCall], fb⟩
      else
        if i < retries - 1 then
          let rest := fetchGo att fb retries fuel (i + 1)
          ⟨pre ++ [.primary i, .sleep (.backoffStd i)] ++ rest.events, rest.result⟩
        else
          let rest := fetchGo att fb retries fuel (i + 1)
          ⟨pre ++ [.primary i] ++ rest.events, rest.result⟩
    | .requestError =>
      if i < retries - 1 then
        let rest := fetchGo att fb retries fuel (i + 1)
        ⟨pre ++ [.primary i, .sleep (.backoffStd i)] ++ rest.events, rest.result⟩
      else
        ⟨pre ++ [.primary i, .fallbackCall], fb⟩

/-- Default retry budget of `fetch_with_retries` (`retries: int = 4`). -/
def DEFAULT_RETRIES : Nat := 4

/-- Function `fetch_with_retries` (crawler_utils.py lines 134-199), as a function of
the primary-attempt outcomes and the result of the fallback. -/
def fetch_with_retries (att : Nat → AttemptOutcome) (fb : Option String)
    (retries : Nat) : FetchRun :=
  fetchGo att fb retries retries 0

/-- Recogniser for primary-attempt events. -/
def isPrimaryEvent : FetchEvent → Bool
  | .primary _ => true
  | _ => false

/-- Number of primary-transport attempts a run issued. -/
def primaryCount (r : FetchRun) : Nat := r.events.countP isPrimaryEvent

/-- Number of fallback (`fetch_with_cloudscraper`) invocations of a run. -/
def fallbackCount (r : FetchRun) : Nat :=
  r.events.countP (fun ev => ev = FetchEvent.fallbackCall)

/-! ## The catalog resolver (helpers/crawler/crawler.py)

`Crawler._collect_episode_ids` validates the range, then builds one
`_get_episode_id(episode_indx)` task per index of
`range(start_index, end_index)` and gathers them in task order.
`_get_episode_id` GETs `{api_url}/{episode_indx}` with params
`start_range = episode_indx, end_range = episode_indx + 1` and returns
`episode_info[-1]["id"] if episode_info else None`, where `episode_info`
is `response.json().get("episodes", [])`.  The embedding is parametrised
by an oracle mapping an index to the decoded `episodes` list of a
successful fetch, or `none` when `fetch_with_retries` was exhausted. -/

/-- One entry of the `episodes` array of the index API response. -/
structure Episode where
  id : String
deriving DecidableEq, Repr

/-- Method `Crawler._get_episode_id` (crawler.py lines 139-157). -/
def get_episode_id (oracle : Int → Option (List Episode)) (i : Int) :
    Option String :=
  match oracle i with
  | none => none
  | some eps =>
    match eps.getLast? with
    | some e => some e.id
    | none => none

/-- The request params `_get_episode_id` sends for index `i`:
`{"start_range": i, "end_range": i + 1}`. -/
def episodeParams (i : Int) : Int × Int := (i, i + 1)

/-- Python `range(a, b)` over integers, as a list. -/
def intRange (a b : Int) : List Int :=
  (List.range (b - a).toNat).map (fun k : Nat => a + (k : Int))

/-- Trace and value of a `_collect_episode_ids` run: the
`(start_range, end_range)` params of every per-episode GET issued, and the
gathered per-task results in task order. -/
structure CollectRun where
  requested : List (Int × Int)
  episodeIds : List (Option String)
deriving DecidableEq, Repr

/-- Method `Crawler._collect_episode_ids` (crawler.py lines 159-174).  A
validation failure is `sys.exit(1)` before any task is created, so the
error case carries no requests. -/
def collect_episode_ids (oracle : Int → Option (List Episode))
    (startEp endEp : Option Int) (numEpisodes : Int) :
    Except String CollectRun :=
  match validate_episode_range startEp endEp numEpisodes with
  | .error msg => .error msg
  | .ok (s, e) =>
    -- start_index = start_episode - 1 if start_episode else 0
    let startIndex : Int := if truthy s then s.getD 0 - 1 else 0
    -- end_index = end_episode if end_episode else self.num_episodes
    let endIndex : Int := if truthy e then e.getD 0 else numEpisodes
    let idxs := intRange startIndex endIndex
    .ok ⟨idxs.map episodeParams, idxs.map (get_episode_id oracle)⟩

/-- Python `f`-string rendering of a `str | None` value: `None` renders as `"None"`. -/
def optionIdString : Option String → String
  | none => "None"
  | some s => s

/-- Method `Crawler._generate_episode_embed_urls` (crawler.py lines 176-181):
`f"https://{self.host_domain}/embed-url/{episode_id}"` over every gathered
episode id, with no filtering of absent ids. -/
def generate_episode_embed_urls (hostDomain : String)
    (episodeIds : List (Option String)) : List String :=
  episodeIds.map (fun eid =>
    "https://" ++ hostDomain ++ "/embed-url/" ++ optionIdString eid)

/-! ## API-URL derivation (helpers/crawler/crawler.py lines 123-137) -/

/-- Python `str.rstrip("/")`: drop every trailing slash. -/
def rstripSlashes (url : String) : String :=
  ⟨(url.data.reverse.dropWhile (fun c => c = '/')).reverse⟩

/-- Function `validate_url` (crawler_utils.py lines 26-30).  The
`url.endswith("/")` test is expressed on the character list. -/
def validate_url (url : String) : String :=
  if url.data.getLast? = some '/' then rstripSlashes url else url

/-- Characters after the first `"://"` of a URL, if any. -/
def afterSchemeSep : List Char → Option (List Char)
  | [] => none
  | ':' :: '/' :: '/' :: rest => some rest
  | _ :: rest => afterSchemeSep rest

/-- Model of `urllib.parse.urlparse(url).netloc` for the absolute
`https://host/path` URLs this program handles: the substring between the
first `"://"` and the next `/` (empty when the URL has no `"://"`). -/
def extract_host_domain (url : String) : String :=
  match afterSchemeSep url.data with
  | some rest => ⟨rest.takeWhile (fun c => c ≠ '/')⟩
  | none => ""

/-- Strip an expected literal head from a character list, returning the
remainder when the head matches. -/
def stripHead : List Char → List Char → Option (List Char)
  | [], rest => some rest
  | _ :: _, [] => none
  | p :: ps, c :: cs => if c = p then stripHead ps cs else none

/-- Model of `re.match(rf"https://{escaped_host_domain}/anime/(\d+-[^/]+)",
validated_url)` returning `group(1)`: after the literal head the remainder
must start with a maximal nonempty ASCII digit run, then `-`, then at least
one character other than `/`; the group is the digits, the dash and the
maximal run of non-`/` characters. -/
def animeIdMatch (domain s : String) : Option String :=
  match stripHead ("https://" ++ domain ++ "/anime/").data s.data with
  | none => none
  | some rest =>
    let digits := rest.takeWhile Char.isDigit
    match digits, rest.dropWhile Char.isDigit with
    | [], _ => none
    | _, '-' :: tail =>
      match tail.takeWhile (fun c => c ≠ '/') with
      | [] => none
      | slug => some ⟨digits ++ '-' :: slug⟩
    | _, _ => none

/-- Method `Crawler._generate_api_url` (crawler.py lines 123-137).  An
`Except.error c` would model `sys.exit(c)`; the failure branch of the source
only runs `logging.error("URL format is incorrect.")` and `return None`,
so every branch of the translation is `Except.ok`. -/
def generate_api_url (url : String) : Except Int (Option String) :=
  let hostDomain := extract_host_domain url
  let validated := validate_url url
  match animeIdMatch hostDomain validated with
  | some animeId =>
    .ok (some ("https://" ++ hostDomain ++ "/info_api/" ++ animeId))
  | none => .ok none

/-! ## The transfer engine (src/anime_downloader.py lines 108-145)

`download_episode(download_link, download_path, task_info, retries=3)`
loops `for attempt in range(retries)`: a full `requests.get(...,
stream=True)` plus `save_file_with_progress` on success then `break`; on
`requests.RequestException` it prints and runs `time.sleep(30)`.  Each
attempt issues a fresh GET with no `Range` header, so every request starts
at byte offset 0. -/

/-- Outcome of one transfer attempt (`requests.get` + `raise_for_status` +
the streamed copy): success with the byte count written, or a
`requests.RequestException`. -/
inductive TransferOutcome where
  | success (size : Nat)
  | failure
deriving DecidableEq, Repr

/-- Trace of a `download_episode` run: the byte offset each issued GET
starts from, the seconds slept after each failed attempt, and the bytes
saved on success (`none` when every attempt failed). -/
structure TransferRun where
  requestOffsets : List Nat
  sleeps : List Nat
  saved : Option Nat
deriving DecidableEq, Repr

/-- The retry loop of `download_episode`, unrolled from attempt `i` with
`fuel` iterations left.  Success records one request and breaks; failure
records the request, sleeps 30 seconds and continues. -/
def downloadGo (att : Nat → TransferOutcome) : Nat → Nat → TransferRun
  | 0, _ => ⟨[], [], none⟩
  | fuel + 1, i =>
    match att i with
    | .success n => ⟨[0], [], some n⟩
    | .failure =>
      let rest := downloadGo att fuel (i + 1)
      ⟨0 :: rest.requestOffsets, 30 :: rest.sleeps, rest.saved⟩

/-- Default retry budget of `download_episode` (`retries=3`). -/
def DOWNLOAD_RETRIES : Nat := 3

/-- Function `download_episode` (anime_downloader.py lines 108-145), as a function
of the per-attempt outcomes. -/
def download_episode (att : Nat → TransferOutcome) (retries : Nat) :
    TransferRun :=
  downloadGo att retries 0

/-! ## The concurrency gate (crawler.py line 52, crawler_utils.py line 142)

`Crawler.__init__` creates `asyncio.Semaphore(max_workers)` with
`max_workers = CRAWLER_WORKERS = 8`, and `fetch_with_retries` wraps its
whole body in `async with semaphore`, so a task holds a slot exactly while
its fetch runs and releases it on every exit path — return, exhausted
retries, or a propagating exception.  The interleaving of tasks is modelled
as a step relation on the phase vector of the tasks: a task may start only
while fewer than `cap` tasks are running, and leaving the `async with`
block — with any outcome — frees the slot in the same transition. -/

/-- How a fetch task leaves the `async with semaphore` block. -/
inductive TaskOutcome where
  | success
  | exhausted
  | errored
deriving DecidableEq, Repr

/-- Phase of one fetch task relative to the semaphore. -/
inductive TaskPhase where
  | waiting
  | running
  | finished (o : TaskOutcome)
deriving DecidableEq, Repr

/-- Whether a task currently holds a semaphore slot. -/
def holdsSlot : TaskPhase → Bool
  | .running => true
  | _ => false

/-- Number of tasks currently inside the `async with semaphore` block. -/
def inFlight (ps : List TaskPhase) : Nat := ps.countP holdsSlot

/-- One scheduler step of the semaphore-gated system: `acquire` admits a
waiting task only while the gate has a free slot (`asyncio.Semaphore`
blocks otherwise); `finish` is a task leaving the `async with` block with
any outcome, which releases its slot in the same transition. -/
inductive GateStep (cap : Nat) : List TaskPhase → List TaskPhase → Prop where
  | acquire (pre post : List TaskPhase)
      (h : inFlight (pre ++ TaskPhase.waiting :: post) < cap) :
      GateStep cap (pre ++ TaskPhase.waiting :: post)
        (pre ++ TaskPhase.running :: post)
  | finish (pre post : List TaskPhase) (o : TaskOutcome) :
      GateStep cap (pre ++ TaskPhase.running :: post)
        (pre ++ TaskPhase.finished o :: post)

/-- States reachable from `n` tasks all waiting on a gate of capacity
`cap`. -/
def GateReachable (cap n : Nat) (s : List TaskPhase) : Prop :=
  Relation.ReflTransGen (GateStep cap) (List.replicate n TaskPhase.waiting) s

/-! ## Helper lemmas -/

/-- Length of an integer range. -/
theorem intRange_length (a b : Int) :
    (intRange a b).length = (b - a).toNat := by
  unfold intRange
  rw [List.length_map, List.length_range]

/-- Indexing an integer range. -/
theorem intRange_getElem? (a b : Int) (k : Nat) (h : k < (b - a).toNat) :
    (intRange a b)[k]? = some (a + k) := by
  unfold intRange
  rw [List.getElem?_map, List.getElem?_range h, Option.map_some']

/-- The replacement character is in neither platform class. -/
theorem underscore_not_invalid (os : OsName) :
    '_' ∉ FileUtils.invalidChars os := by
  cases os <;> decide

/-- Every sleep a `download_episode` run records lasts 30 seconds. -/
theorem downloadGo_sleeps (att : Nat → TransferOutcome) :
    ∀ fuel i, ∀ d ∈ (downloadGo att fuel i).sleeps, d = 30 := by
  intro fuel
  induction fuel with
  | zero => intro i d hd; simp [downloadGo] at hd
  | succ n ih =>
    intro i d hd
    cases h : att i with
    | success k => simp [downloadGo, h] at hd
    | failure =>
      simp only [downloadGo, h, List.mem_cons] at hd
      rcases hd with rfl | hd
      · rfl
      · exact ih (i + 1) d hd

/-- Every GET a `download_episode` run issues starts at byte offset 0. -/
theorem downloadGo_offsets (att : Nat → TransferOutcome) :
    ∀ fuel i, ∀ o ∈ (downloadGo att fuel i).requestOffsets, o = 0 := by
  intro fuel
  induction fuel with
  | zero => intro i o ho; simp [downloadGo] at ho
  | succ n ih =>
    intro i o ho
    cases h : att i with
    | success k => simp [downloadGo, h] at ho; exact ho
    | failure =>
      simp only [downloadGo, h, List.mem_cons] at ho
      rcases ho with rfl | ho
      · rfl
      · exact ih (i + 1) o ho

/-- A `download_episode` run issues at most `fuel` GET attempts. -/
theorem downloadGo_budget (att : Nat → TransferOutcome) :
    ∀ fuel i, (downloadGo att fuel i).requestOffsets.length ≤ fuel := by
  intro fuel
  induction fuel with
  | zero => intro i; simp [downloadGo]
  | succ n ih =>
    intro i
    cases h : att i with
    | success k => simp [downloadGo, h]
    | failure =>
      simp only [downloadGo, h, List.length_cons]
      exact Nat.succ_le_succ (ih (i + 1))

/-- When every attempt fails, a `download_episode` run saves nothing. -/
theorem downloadGo_saved_none (att : Nat → TransferOutcome)
    (hall : ∀ i, att i = TransferOutcome.failure) :
    ∀ fuel i, (downloadGo att fuel i).saved = none := by
  intro fuel
  induction fuel with
  | zero => intro i; simp [downloadGo]
  | succ n ih =>
    intro i
    simp only [downloadGo, hall i]
    exact ih (i + 1)

theorem countP_isPrimaryEvent_preDelayEvents (i : Nat) :
    (preDelayEvents i).countP isPrimaryEvent = 0 := by
  unfold preDelayEvents
  split <;> rfl

theorem countP_fallback_preDelayEvents (i : Nat) :
    (preDelayEvents i).countP (fun ev => ev = FetchEvent.fallbackCall) = 0 := by
  unfold preDelayEvents
  split <;> rfl

theorem primary_not_mem_preDelayEvents (j i : Nat) :
    FetchEvent.primary j ∉ preDelayEvents i := by
  unfold preDelayEvents
  split <;> simp

theorem fallback_not_mem_preDelayEvents (i : Nat) :
    FetchEvent.fallbackCall ∉ preDelayEvents i := by
  unfold preDelayEvents
  split <;> simp

theorem fetchGo_primary_le (att : Nat → AttemptOutcome) (fb : Option String)
    (retries : Nat) :
    ∀ fuel i,
      (fetchGo att fb retries fuel i).events.countP isPrimaryEvent ≤ fuel := by
  intro fuel
  induction fuel with
  | zero => intro i; simp [fetchGo]
  | succ n ih =>
    intro i
    have hpre := countP_isPrimaryEvent_preDelayEvents i
    have hrec := ih (i + 1)
    cases h : att i with
    | success body =>
      simp [fetchGo, h, List.countP_append, List.countP_cons, isPrimaryEvent,
        hpre]
    | httpStatus code =>
      simp only [fetchGo, h]
      split_ifs <;>
        simp [List.countP_append, List.countP_cons, isPrimaryEvent, hpre] <;>
        omega
    | requestError =>
      simp only [fetchGo, h]
      split_ifs <;>
        simp [List.countP_append, List.countP_cons, isPrimaryEvent, hpre] <;>
        omega

theorem fetchGo_exhaust_none (att : Nat → AttemptOutcome) (fb : Option String)
    (retries : Nat) (hatt : ∀ i b, att i ≠ AttemptOutcome.success b)
    (hfb : fb = none) :
    ∀ fuel i, (fetchGo att fb retries fuel i).result = none := by
  subst hfb
  intro fuel
  induction fuel with
  | zero => intro i; simp [fetchGo]
  | succ n ih =>
    intro i
    cases h : att i with
    | success body => exact absurd h (hatt i body)
    | httpStatus code =>
      simp only [fetchGo, h]
      split_ifs <;> simp [ih (i + 1)]
    | requestError =>
      simp only [fetchGo, h]
      split_ifs <;> simp [ih (i + 1)]

theorem fetchGo_fallback_le_one (att : Nat → AttemptOutcome)
    (fb : Option String) (retries : Nat) :
    ∀ fuel i,
      (fetchGo att fb retries fuel i).events.countP
        (fun ev => ev = FetchEvent.fallbackCall) ≤ 1 := by
  intro fuel
  induction fuel with
  | zero => intro i; simp [fetchGo]
  | succ n ih =>
    intro i
    have hpre := countP_fallback_preDelayEvents i
    have hrec := ih (i + 1)
    cases h : att i with
    | success body =>
      simp [fetchGo, h, List.countP_append, List.countP_cons, hpre]
    | httpStatus code =>
      simp only [fetchGo, h]
      split_ifs <;>
        simp [List.countP_append, List.countP_cons, hpre] <;> omega
    | requestError =>
      simp only [fetchGo, h]
      split_ifs <;>
        simp [List.countP_append, List.countP_cons, hpre] <;> omega

theorem fetchGo_fallback_result (att : Nat → AttemptOutcome)
    (fb : Option String) (retries : Nat) :
    ∀ fuel i,
      FetchEvent.fallbackCall ∈ (fetchGo att fb retries fuel i).events →
      (fetchGo att fb retries fuel i).result = fb := by
  intro fuel
  induction fuel with
  | zero => intro i hmem; simp [fetchGo] at hmem
  | succ n ih =>
    intro i hmem
    cases h : att i with
    | success body =>
      rw [fetchGo] at hmem ⊢
      simp only [h] at hmem ⊢
      simp [fallback_not_mem_preDelayEvents i] at hmem
    | httpStatus code =>
      rw [fetchGo] at hmem ⊢
      simp only [h] at hmem ⊢
      split_ifs at hmem ⊢ <;>
        simp_all [fallback_not_mem_preDelayEvents i, ih (i + 1)]
    | requestError =>
      rw [fetchGo] at hmem ⊢
      simp only [h] at hmem ⊢
      split_ifs at hmem ⊢ <;>
        simp_all [fallback_not_mem_preDelayEvents i, ih (i + 1)]

theorem fetchGo_primary_self_mem (att : Nat → AttemptOutcome)
    (fb : Option String) (retries : Nat) :
    ∀ fuel i, 0 < fuel →
      FetchEvent.primary i ∈ (fetchGo att fb retries fuel i).events := by
  intro fuel i hf
  cases fuel with
  | zero => omega
  | succ n =>
    cases h : att i with
    | success body => simp [fetchGo, h]
    | httpStatus code =>
      simp only [fetchGo, h]
      split_ifs <;> simp
    | requestError =>
      simp only [fetchGo, h]
      split_ifs <;> simp

theorem fetchGo_fallback_primaries (att : Nat → AttemptOutcome)
    (fb : Option String) (retries : Nat) :
    ∀ fuel i, fuel + i = retries →
      FetchEvent.fallbackCall ∈ (fetchGo att fb retries fuel i).events →
      (fetchGo att fb retries fuel i).events.countP isPrimaryEvent = fuel := by
  intro fuel
  induction fuel with
  | zero => intro i hinv hmem; simp [fetchGo] at hmem
  | succ n ih =>
    intro i hinv hmem
    have hpre := countP_isPrimaryEvent_preDelayEvents i
    cases h : att i with
    | success body =>
      rw [fetchGo] at hmem
      simp only [h] at hmem
      simp [fallback_not_mem_preDelayEvents i] at hmem
    | httpStatus code =>
      rw [fetchGo] at hmem ⊢
      simp only [h] at hmem ⊢
      split_ifs at hmem ⊢ with h403 hlast hlast2
      · -- 403, not last: recurse
        simp only [List.mem_append] at hmem
        rcases hmem with (hmem | hmem) | hmem
        · exact absurd hmem (fallback_not_mem_preDelayEvents i)
        · simp at hmem
        · have := ih (i + 1) (by omega) hmem
          simp [List.countP_append, List.countP_cons, isPrimaryEvent, hpre,
            this]
      · -- 403, last: terminal fallback; n must be 0
        have hn : n = 0 := by omega
        simp [List.countP_append, List.countP_cons, isPrimaryEvent, hpre, hn]
      · -- other status, not last: recurse
        simp only [List.mem_append] at hmem
        rcases hmem with (hmem | hmem) | hmem
        · exact absurd hmem (fallback_not_mem_preDelayEvents i)
        · simp at hmem
        · have := ih (i + 1) (by omega) hmem
          simp [List.countP_append, List.countP_cons, isPrimaryEvent, hpre,
            this]
      · -- other status, last: loop continues with empty tail
        simp only [List.mem_append] at hmem
        rcases hmem with (hmem | hmem) | hmem
        · exact absurd hmem (fallback_not_mem_preDelayEvents i)
        · simp at hmem
        · have := ih (i + 1) (by omega) hmem
          simp [List.countP_append, List.countP_cons, isPrimaryEvent, hpre,
            this]
    | requestError =>
      rw [fetchGo] at hmem ⊢
      simp only [h] at hmem ⊢
      split_ifs at hmem ⊢ with hlast
      · simp only [List.mem_append] at hmem
        rcases hmem with (hmem | hmem) | hmem
        · exact absurd hmem (fallback_not_mem_preDelayEvents i)
        · simp at hmem
        · have := ih (i + 1) (by omega) hmem
          simp [List.countP_append, List.countP_cons, isPrimaryEvent, hpre,
            this]
      · have hn : n = 0 := by omega
        simp [List.countP_append, List.countP_cons, isPrimaryEvent, hpre, hn]

theorem fetchGo_403_retries_primary (att : Nat → AttemptOutcome)
    (fb : Option String) (retries : Nat) :
    ∀ fuel i, fuel + i = retries →
      ∀ j, j + 1 < retries →
        FetchEvent.primary j ∈ (fetchGo att fb retries fuel i).events →
        att j = AttemptOutcome.httpStatus 403 →
        FetchEvent.sleep (SleepKind.backoff403 j) ∈
          (fetchGo att fb retries fuel i).events ∧
        FetchEvent.primary (j + 1) ∈ (fetchGo att fb retries fuel i).events := by
  intro fuel
  induction fuel with
  | zero => intro i hinv j hj hmem hatt; simp [fetchGo] at hmem
  | succ n ih =>
    intro i hinv j hj hmem hatt
    by_cases hji : j = i
    · subst hji
      have hlast : j < retries - 1 := by omega
      have hn : 0 < n := by omega
      have hnext := fetchGo_primary_self_mem att fb retries n (j + 1) hn
      rw [fetchGo]
      simp only [hatt]
      simp [hlast, hnext]
    · rw [fetchGo] at hmem ⊢
      cases h : att i with
      | success body =>
        simp only [h] at hmem
        simp only [List.mem_append] at hmem
        rcases hmem with hmem | hmem
        · exact absurd hmem (primary_not_mem_preDelayEvents j i)
        · simp at hmem
          exact absurd hmem hji
      | httpStatus code =>
        simp only [h] at hmem ⊢
        split_ifs at hmem ⊢ with h403 hlast hlast2
        · simp only [List.mem_append] at hmem
          rcases hmem with (hmem | hmem) | hmem
          · exact absurd hmem (primary_not_mem_preDelayEvents j i)
          · simp at hmem
            exact absurd hmem hji
          · have hres := ih (i + 1) (by omega) j hj hmem hatt
            exact ⟨by simp [hres.1], by simp [hres.2]⟩
        · simp only [List.mem_append] at hmem
          rcases hmem with hmem | hmem
          · exact absurd hmem (primary_not_mem_preDelayEvents j i)
          · simp at hmem
            exact absurd hmem hji
        · simp only [List.mem_append] at hmem
          rcases hmem with (hmem | hmem) | hmem
          · exact absurd hmem (primary_not_mem_preDelayEvents j i)
          · simp at hmem
            exact absurd hmem hji
          · have hres := ih (i + 1) (by omega) j hj hmem hatt
            exact ⟨by simp [hres.1], by simp [hres.2]⟩
        · simp only [List.mem_append] at hmem
          rcases hmem with (hmem | hmem) | hmem
          · exact absurd hmem (primary_not_mem_preDelayEvents j i)
          · simp at hmem
            exact absurd hmem hji
          · have hres := ih (i + 1) (by omega) j hj hmem hatt
            exact ⟨by simp [hres.1], by simp [hres.2]⟩
      | requestError =>
        simp only [h] at hmem ⊢
        split_ifs at hmem ⊢ with hlast
        · simp only [List.mem_append] at hmem
          rcases hmem with (hmem | hmem) | hmem
          · exact absurd hmem (primary_not_mem_preDelayEvents j i)
          · simp at hmem
            exact absurd hmem hji
          · have hres := ih (i + 1) (by omega) j hj hmem hatt
            exact ⟨by simp [hres.1], by simp [hres.2]⟩
        · simp only [List.mem_append] at hmem
          rcases hmem with hmem | hmem
          · exact absurd hmem (primary_not_mem_preDelayEvents j i)
          · simp at hmem
            exact absurd hmem hji

end AnimeUnity

namespace AnimeUnity

/-! ## Claims -/

/-- C10: directory-name sanitization is idempotent, its output contains no
character of the platform class, and the copies in `helpers/file_utils.py`
and `helpers/general_utils.py` are extensionally equal. -/
theorem sanitize_directory_name_spec (os : OsName) (s : String) :
    FileUtils.sanitize_directory_name os (FileUtils.sanitize_directory_name os s) =
      FileUtils.sanitize_directory_name os s ∧
    (∀ c ∈ (FileUtils.sanitize_directory_name os s).data,
      c ∉ FileUtils.invalidChars os) ∧
    FileUtils.sanitize_directory_name os s =
      GeneralUtils.sanitize_directory_name os s := by
  refine ⟨?_, ?_, rfl⟩
  · show String.mk ((s.data.map _).map _) = String.mk (s.data.map _)
    rw [List.map_map]
    refine congrArg String.mk (List.map_congr_left ?_)
    intro a _
    by_cases h : a ∈ FileUtils.invalidChars os
    · simp [Function.comp, h, underscore_not_invalid os]
    · simp [Function.comp, h]
  · intro c hc
    rcases List.mem_map.mp hc with ⟨a, -, rfl⟩
    by_cases h : a ∈ FileUtils.invalidChars os
    · simp [h, underscore_not_invalid os]
    · simp [h]

/-- C10 witness: concrete application on `"a/b"` under the posix class. -/
theorem sanitize_directory_name_spec_witness :
    '_' ∉ FileUtils.invalidChars OsName.posix ∧
    FileUtils.sanitize_directory_name OsName.posix "a/b" =
      GeneralUtils.sanitize_directory_name OsName.posix "a/b" := by
  have h := sanitize_directory_name_spec OsName.posix "a/b"
  exact ⟨h.2.1 '_' (by decide), h.2.2⟩

/-- C7 counterexample: on the base URL
`https://www.animeunity.to/other/1469-naruto`, which does not match the
`{domain}/anime/{numericId}-{slug}` shape, `_generate_api_url` returns
normally with `None` (`Except.ok none`); no `sys.exit` with a non-zero code
occurs, refuting the claimed fatal exit. -/
theorem api_url_bad_shape_counterexample :
    generate_api_url "https://www.animeunity.to/other/1469-naruto" =
      Except.ok none ∧
    ¬ ∃ c : Int, c ≠ 0 ∧
      generate_api_url "https://www.animeunity.to/other/1469-naruto" =
        Except.error c := by
  have hok : generate_api_url "https://www.animeunity.to/other/1469-naruto" =
      Except.ok none := rfl
  refine ⟨hok, ?_⟩
  rintro ⟨c, -, hc⟩
  rw [hok] at hc
  exact Except.noConfusion hc

/-- C7 amended: a base URL that does not match the documented path shape is
not a process exit: `_generate_api_url` logs the diagnostic and returns the
absent API URL `None`, and the function returns normally on every input. -/
theorem api_url_mismatch_returns_none (url : String) :
    (∃ v, generate_api_url url = Except.ok v) ∧
    (animeIdMatch (extract_host_domain url) (validate_url url) = none →
      generate_api_url url = Except.ok none) := by
  constructor
  · cases h : animeIdMatch (extract_host_domain url) (validate_url url) with
    | none => exact ⟨none, by simp [generate_api_url, h]⟩
    | some a =>
      exact ⟨some ("https://" ++ extract_host_domain url ++ "/info_api/" ++ a),
        by simp [generate_api_url, h]⟩
  · intro h
    simp [generate_api_url, h]

/-- C7 witness: the amended fact applied at the concrete mismatching URL. -/
theorem api_url_mismatch_returns_none_witness :
    generate_api_url "https://www.animeunity.to/other/1469-naruto" =
      Except.ok none :=
  (api_url_mismatch_returns_none
    "https://www.animeunity.to/other/1469-naruto").2 rfl

/-- C8 counterexample: with every attempt failing, `download_episode` at its
default budget issues 3 attempts (not 4) and sleeps a fixed 30 seconds after
each failure; 30 lies outside `[10, 12]`, the only values
`10 * (attempt + 1) + jitter(0, 2)` admits for attempt 0, refuting the
claimed schedule. -/
theorem transfer_retry_counterexample :
    download_episode (fun _ => TransferOutcome.failure) DOWNLOAD_RETRIES =
      ⟨[0, 0, 0], [30, 30, 30], none⟩ ∧
    DOWNLOAD_RETRIES ≠ 4 ∧
    ¬ (10 * (0 + 1) ≤ 30 ∧ 30 ≤ 10 * (0 + 1) + 2) :=
  ⟨rfl, by decide, by decide⟩

/-- C8 amended: the transfer engine has an independent retry budget with
default 3 attempts; after every failure it waits a fixed 30 seconds; every
attempt restarts the stream from byte offset 0 (no byte-range resume), and
when every attempt fails nothing is saved. -/
theorem transfer_retry_discipline (att : Nat → TransferOutcome)
    (retries : Nat) :
    (download_episode att retries).requestOffsets.length ≤ retries ∧
    (∀ d ∈ (download_episode att retries).sleeps, d = 30) ∧
    (∀ o ∈ (download_episode att retries).requestOffsets, o = 0) ∧
    ((∀ i, att i = TransferOutcome.failure) →
      (download_episode att retries).saved = none) :=
  ⟨downloadGo_budget att retries 0,
   downloadGo_sleeps att retries 0,
   downloadGo_offsets att retries 0,
   fun hall => downloadGo_saved_none att hall retries 0⟩

/-- C8 witness: the discipline applied to the all-failing transfer at the
default budget. -/
theorem transfer_retry_discipline_witness :
    (download_episode (fun _ => TransferOutcome.failure)
      DOWNLOAD_RETRIES).requestOffsets.length ≤ DOWNLOAD_RETRIES ∧
    (download_episode (fun _ => TransferOutcome.failure)
      DOWNLOAD_RETRIES).saved = none := by
  have h := transfer_retry_discipline (fun _ => TransferOutcome.failure)
    DOWNLOAD_RETRIES
  exact ⟨h.1, h.2.2.2 (fun _ => rfl)⟩

/-- C1 counterexample: with totalCount 10 and only `end = 20` supplied (an
invalid range, `end > totalCount`), validation returns normally and the
resolver issues 20 per-episode fetches — resolution does not abort before
per-episode fetches when only the end bound is supplied. -/
theorem range_end_only_counterexample :
    validate_episode_range none (some 20) 10 = Except.ok (none, some 20) ∧
    (collect_episode_ids (fun _ => some []) none (some 20) 10).map
      (fun r => r.requested.length) = Except.ok 20 :=
  ⟨rfl, rfl⟩

/-- C1 amended: when the start bound is supplied (and nonzero), a start
below 1 or above totalCount aborts with the fatal validation error before
any per-episode fetch; when both bounds are supplied, start > end and
end > totalCount also abort before any fetch; but when the start bound is
absent no validation is performed at all and resolution proceeds whatever
the end bound is. -/
theorem range_validation_aborts (s e num : Int) :
    (s ≠ 0 → (s < 1 ∨ s > num) →
      ∀ (oracle : Int → Option (List Episode)) (endEp : Option Int),
      collect_episode_ids oracle (some s) endEp num =
        Except.error "Start episode must be between 1 and num_episodes.") ∧
    (s ≠ 0 → e ≠ 0 → ¬(s < 1 ∨ s > num) → s > e →
      ∀ oracle : Int → Option (List Episode),
      collect_episode_ids oracle (some s) (some e) num =
        Except.error "Start episode cannot be greater than end episode.") ∧
    (s ≠ 0 → e ≠ 0 → ¬(s < 1 ∨ s > num) → ¬(s > e) → e > num →
      ∀ oracle : Int → Option (List Episode),
      collect_episode_ids oracle (some s) (some e) num =
        Except.error "End episode must be between 1 and num_episodes.") ∧
    (∀ (oracle : Int → Option (List Episode)) (endEp : Option Int),
      ∃ run, collect_episode_ids oracle none endEp num = Except.ok run) := by
  refine ⟨?_, ?_, ?_, ?_⟩
  · intro hs hrange oracle endEp
    cases endEp <;>
      simp [collect_episode_ids, validate_episode_range, hs, hrange]
  · intro hs he hok hgt oracle
    simp [collect_episode_ids, validate_episode_range, hs, he, hok, hgt]
  · intro hs he hok hle hend oracle
    simp [collect_episode_ids, validate_episode_range, hs, he, hok, hle, hend]
  · intro oracle endEp
    exact ⟨_, rfl⟩

/-- C1 witness: the spec scenario `start = 20, end = 5, totalCount = 10`
aborts with the start-range validation error before any fetch. -/
theorem range_validation_aborts_witness :
    collect_episode_ids (fun _ => some []) (some 20) (some 5) 10 =
      Except.error "Start episode must be between 1 and num_episodes." :=
  (range_validation_aborts 20 5 10).1 (by decide) (by decide)
    (fun _ => some []) (some 5)

/-- C4 counterexample: with totalCount 10 and no bounds, the resolver
issues ten GETs, one per episode index with the single-episode window
`(i, i + 1)` — not one GET for the single page of width `BATCH_SIZE = 120`
that would cover `[0, 10]`. -/
theorem resolver_pagination_counterexample :
    (collect_episode_ids (fun _ => some []) none none 10).map
      (fun r => r.requested) =
      Except.ok [(0, 1), (1, 2), (2, 3), (3, 4), (4, 5),
                 (5, 6), (6, 7), (7, 8), (8, 9), (9, 10)] ∧
    (collect_episode_ids (fun _ => some []) none none 10).map
      (fun r => r.requested.length) = Except.ok 10 ∧
    (10 + BATCH_SIZE - 1) / BATCH_SIZE = 1 ∧ (10 : Nat) ≠ 1 :=
  ⟨rfl, rfl, rfl, by decide⟩

/-- C4 amended: with no bounds the resolver issues exactly one GET per
episode index `k` of `[0, totalCount)` through the retrying fetcher, each
requesting the single-episode window `start_range = k, end_range = k + 1`
(`BATCH_SIZE = 120` is defined in the configuration but not used by the
crawler), and the gathered identifier list keeps index order regardless of
fetch completion order: entry `k` is the result of the fetch for index
`k`. -/
theorem resolver_per_episode_requests (oracle : Int → Option (List Episode))
    (num : Int) :
    ∃ run, collect_episode_ids oracle none none num = Except.ok run ∧
      run.requested.length = num.toNat ∧
      run.episodeIds.length = num.toNat ∧
      (∀ k : Nat, k < num.toNat →
        run.requested[k]? = some ((k : Int), (k : Int) + 1) ∧
        run.episodeIds[k]? = some (get_episode_id oracle (k : Int))) := by
  refine ⟨⟨(intRange 0 num).map episodeParams,
           (intRange 0 num).map (get_episode_id oracle)⟩, rfl, ?_, ?_, ?_⟩
  · rw [List.length_map, intRange_length, Int.sub_zero]
  · rw [List.length_map, intRange_length, Int.sub_zero]
  · intro k hk
    have hk2 : k < (num - 0).toNat := by rwa [Int.sub_zero]
    have hidx : (intRange 0 num)[k]? = some ((0 : Int) + k) :=
      intRange_getElem? 0 num k hk2
    constructor
    · rw [List.getElem?_map, hidx, Option.map_some']
      simp [episodeParams]
    · rw [List.getElem?_map, hidx, Option.map_some']
      simp

/-- C4 witness: ten episodes, all fetches succeeding with an empty episode
list; the first request window is `(0, 1)`. -/
theorem resolver_per_episode_requests_witness :
    ∃ run, collect_episode_ids (fun _ => some []) none none 10 =
        Except.ok run ∧
      run.requested.length = (10 : Int).toNat ∧
      run.requested[0]? = some (0, 1) := by
  obtain ⟨run, h1, h2, -, h4⟩ :=
    resolver_per_episode_requests (fun _ => some []) 10
  refine ⟨run, h1, h2, ?_⟩
  simpa using (h4 0 (by decide)).1

/-- C5: with totalCount 10 and range start 3, end 5, when every
per-episode fetch succeeds (index `i` resolving to identifier `g i`), the
resolver requests exactly the index windows `(2,3)`, `(3,4)`, `(4,5)` —
the episodes numbered 3, 4 and 5 — gathers their three identifiers in
order, and the embed-URL generator maps them through the fixed template
`https://{domain}/embed-url/{id}`. -/
theorem resolver_range_3_5 (oracle : Int → Option (List Episode))
    (g : Int → String) (domain : String)
    (h : ∀ i, get_episode_id oracle i = some (g i)) :
    collect_episode_ids oracle (some 3) (some 5) 10 =
      Except.ok ⟨[(2, 3), (3, 4), (4, 5)],
        [some (g 2), some (g 3), some (g 4)]⟩ ∧
    generate_episode_embed_urls domain
        [some (g 2), some (g 3), some (g 4)] =
      ["https://" ++ domain ++ "/embed-url/" ++ g 2,
       "https://" ++ domain ++ "/embed-url/" ++ g 3,
       "https://" ++ domain ++ "/embed-url/" ++ g 4] := by
  constructor
  · have hc : collect_episode_ids oracle (some 3) (some 5) 10 =
        Except.ok ⟨[(2, 3), (3, 4), (4, 5)],
          [get_episode_id oracle 2, get_episode_id oracle 3,
           get_episode_id oracle 4]⟩ := rfl
    rw [hc, h 2, h 3, h 4]
  · rfl

/-- C5 witness: the scenario with every fetch returning the one-episode
list with identifier `"w"`. -/
theorem resolver_range_3_5_witness :
    collect_episode_ids (fun _ => some [⟨"w"⟩]) (some 3) (some 5) 10 =
      Except.ok ⟨[(2, 3), (3, 4), (4, 5)],
        [some "w", some "w", some "w"]⟩ :=
  (resolver_range_3_5 (fun _ => some [⟨"w"⟩]) (fun _ => "w") "x"
    (fun _ => rfl)).1

/-- C6 counterexample: two episodes with the fetch for index 0 exhausted:
the absent identifier is NOT dropped — the resolver keeps it and the
embed-URL generator derives the locator
`https://www.animeunity.to/embed-url/None` from it, yielding two locators
instead of one. -/
theorem absent_id_locator_counterexample :
    collect_episode_ids
        (fun i => if i = 0 then none else some [⟨"77"⟩]) none none 2 =
      Except.ok ⟨[(0, 1), (1, 2)], [none, some "77"]⟩ ∧
    generate_episode_embed_urls "www.animeunity.to" [none, some "77"] =
      ["https://www.animeunity.to/embed-url/None",
       "https://www.animeunity.to/embed-url/77"] ∧
    (generate_episode_embed_urls "www.animeunity.to"
      [none, some "77"]).length ≠ 1 :=
  ⟨rfl, rfl, by decide⟩

/-- C6 amended: an exhausted per-episode fetch does not abort resolution —
with no bounds the resolver always returns normally whatever the oracle —
but its absent identifier is passed through rather than dropped: the
embed-URL list has one locator per gathered entry, and an absent entry at
position `k` becomes the locator `https://{domain}/embed-url/None`. -/
theorem absent_ids_pass_through (domain : String)
    (ids : List (Option String)) (oracle : Int → Option (List Episode))
    (num : Int) :
    (generate_episode_embed_urls domain ids).length = ids.length ∧
    (∀ k : Nat, ids[k]? = some none →
      (generate_episode_embed_urls domain ids)[k]? =
        some ("https://" ++ domain ++ "/embed-url/" ++ "None")) ∧
    (∃ run, collect_episode_ids oracle none none num = Except.ok run) := by
  refine ⟨List.length_map ids _, ?_, ⟨_, rfl⟩⟩
  intro k hk
  simp [generate_episode_embed_urls, List.getElem?_map, hk, optionIdString]

/-- C6 witness: one absent identifier passed through at position 0. -/
theorem absent_ids_pass_through_witness :
    (generate_episode_embed_urls "d" [none]).length = 1 ∧
    (generate_episode_embed_urls "d" [none])[0]? =
      some ("https://" ++ "d" ++ "/embed-url/" ++ "None") := by
  have h := absent_ids_pass_through "d" [none] (fun _ => none) 0
  exact ⟨by simpa using h.1, h.2.1 0 rfl⟩

/-- C2: the retrying fetcher performs at most `retries` primary-transport
attempts (default `DEFAULT_RETRIES = 4`), and when every primary attempt
fails and the fallback yields nothing the caller receives `none` — the
translation returns a value on every path, never an exception. -/
theorem fetch_retry_budget (att : Nat → AttemptOutcome) (fb : Option String)
    (retries : Nat) :
    primaryCount (fetch_with_retries att fb retries) ≤ retries ∧
    ((∀ i b, att i ≠ AttemptOutcome.success b) → fb = none →
      (fetch_with_retries att fb retries).result = none) := by
  constructor
  · exact fetchGo_primary_le att fb retries retries 0
  · intro hatt hfb
    exact fetchGo_exhaust_none att fb retries hatt hfb retries 0

/-- C2 witness: the always-failing transport at the default budget. -/
theorem fetch_retry_budget_witness :
    primaryCount (fetch_with_retries (fun _ => AttemptOutcome.requestError)
      none DEFAULT_RETRIES) ≤ DEFAULT_RETRIES ∧
    (fetch_with_retries (fun _ => AttemptOutcome.requestError) none
      DEFAULT_RETRIES).result = none := by
  have h := fetch_retry_budget (fun _ => AttemptOutcome.requestError) none
    DEFAULT_RETRIES
  exact ⟨h.1, h.2 (fun i b hsb => AttemptOutcome.noConfusion hsb) rfl⟩

/-- C3 counterexample: a 403 on attempt 0 followed by a success — the run
invokes the fallback zero times, not the once-per-403 the claim requires;
the fetcher retried the primary transport instead. -/
theorem fetch_403_counterexample :
    fetch_with_retries
        (fun i => if i = 0 then AttemptOutcome.httpStatus 403
                  else AttemptOutcome.success "ok")
        (some "fallback") DEFAULT_RETRIES =
      ⟨[FetchEvent.primary 0, FetchEvent.sleep (SleepKind.backoff403 0),
        FetchEvent.sleep (SleepKind.preDelay 1), FetchEvent.primary 1],
       some "ok"⟩ ∧
    fallbackCount
      (fetch_with_retries
        (fun i => if i = 0 then AttemptOutcome.httpStatus 403
                  else AttemptOutcome.success "ok")
        (some "fallback") DEFAULT_RETRIES) = 0 ∧
    (0 : Nat) ≠ 1 :=
  ⟨rfl, rfl, by decide⟩

/-- C3 amended: a 403 on a non-final attempt sleeps the
`2 ** attempt + uniform(1, 3)` backoff and reissues the primary transport —
no fallback; the fallback is invoked at most once per run, only after the
full primary budget is spent, and its result (even absent) is returned
directly: the primary loop does not continue after a fallback. -/
theorem fetch_403_fallback_discipline (att : Nat → AttemptOutcome)
    (fb : Option String) (retries : Nat) :
    fallbackCount (fetch_with_retries att fb retries) ≤ 1 ∧
    (FetchEvent.fallbackCall ∈ (fetch_with_retries att fb retries).events →
      (fetch_with_retries att fb retries).result = fb ∧
      primaryCount (fetch_with_retries att fb retries) = retries) ∧
    (∀ i, i + 1 < retries →
      FetchEvent.primary i ∈ (fetch_with_retries att fb retries).events →
      att i = AttemptOutcome.httpStatus 403 →
      FetchEvent.sleep (SleepKind.backoff403 i) ∈
        (fetch_with_retries att fb retries).events ∧
      FetchEvent.primary (i + 1) ∈
        (fetch_with_retries att fb retries).events) := by
  refine ⟨?_, ?_, ?_⟩
  · exact fetchGo_fallback_le_one att fb retries retries 0
  · intro hmem
    exact ⟨fetchGo_fallback_result att fb retries retries 0 hmem,
      fetchGo_fallback_primaries att fb retries retries 0 (by omega) hmem⟩
  · intro i hi hmem hatt
    exact fetchGo_403_retries_primary att fb retries retries 0 (by omega)
      i hi hmem hatt

/-- C3 witness: every attempt a 403 with an empty-handed fallback, budget
2: both primary attempts run, the first 403 sleeps its backoff, and the
final result is the fallback value `none`. -/
theorem fetch_403_fallback_discipline_witness :
    (fetch_with_retries (fun _ => AttemptOutcome.httpStatus 403) none
      2).result = none ∧
    primaryCount (fetch_with_retries (fun _ => AttemptOutcome.httpStatus 403)
      none 2) = 2 ∧
    FetchEvent.sleep (SleepKind.backoff403 0) ∈
      (fetch_with_retries (fun _ => AttemptOutcome.httpStatus 403) none
        2).events := by
  have h := fetch_403_fallback_discipline
    (fun _ => AttemptOutcome.httpStatus 403) none 2
  have hmem : FetchEvent.fallbackCall ∈
      (fetch_with_retries (fun _ => AttemptOutcome.httpStatus 403) none
        2).events := by decide
  have hp : FetchEvent.primary 0 ∈
      (fetch_with_retries (fun _ => AttemptOutcome.httpStatus 403) none
        2).events := by decide
  exact ⟨(h.2.1 hmem).1, (h.2.1 hmem).2, (h.2.2 0 (by decide) hp rfl).1⟩

/-- C9: in every schedule of semaphore-gated fetch tasks reachable from the
all-waiting start, the number of in-flight fetches never exceeds the gate
capacity `CRAWLER_WORKERS = 8`; and a task leaving the gate with any
outcome — success, exhaustion or error — releases its slot in the same
transition (the in-flight count drops by exactly one). -/
theorem gate_capacity_invariant (n : Nat) (s : List TaskPhase)
    (h : GateReachable CRAWLER_WORKERS n s) :
    inFlight s ≤ CRAWLER_WORKERS ∧
    (∀ (pre post : List TaskPhase) (o : TaskOutcome),
      inFlight (pre ++ TaskPhase.finished o :: post) + 1 =
        inFlight (pre ++ TaskPhase.running :: post)) := by
  constructor
  · unfold GateReachable at h
    induction h with
    | refl =>
      have h0 : inFlight (List.replicate n TaskPhase.waiting) = 0 := by
        simp only [inFlight, List.countP_eq_zero]
        intro a ha
        rw [List.eq_of_mem_replicate ha]
        simp [holdsSlot]
      omega
    | tail hr step ih =>
      cases step with
      | acquire pre post hlt =>
        simp [inFlight, List.countP_append, List.countP_cons,
          holdsSlot] at hlt ih ⊢
        omega
      | finish pre post o =>
        simp [inFlight, List.countP_append, List.countP_cons,
          holdsSlot] at ih ⊢
        omega
  · intro pre post o
    simp [inFlight, List.countP_append, List.countP_cons, holdsSlot]
    omega

/-- C9 witness: one task acquiring the gate from the initial state. -/
theorem gate_capacity_invariant_witness :
    inFlight [TaskPhase.running] ≤ CRAWLER_WORKERS := by
  have hstep : GateStep CRAWLER_WORKERS [TaskPhase.waiting]
      [TaskPhase.running] :=
    GateStep.acquire [] [] (by decide)
  exact (gate_capacity_invariant 1 [TaskPhase.running]
    (Relation.ReflTransGen.single hstep)).1

end AnimeUnity
